import Mathlib

/-!
Verification of the `witr` process-ancestry tool against its design spec.

The repository ships `cmd/witr/main.go` (the pipeline driver); the internal
packages (`target`, `process`, `source`, `model`) are declared and called
from `main.go` but their sources are not in the repository snapshot, so
their behaviour is modelled from the spec (each such definition is marked
`Modelled from the spec:`). `main.go` itself (target selection, error
surfacing, ambiguity handling, result construction) is embedded directly
from the source.

Machine integers (pids, ports, inodes) are small non-negative values; Go
never overflows them in this program, so they are modelled as `Nat`.
-/

/-- Process lifecycle state.  Modelled from the spec: the `state` enum of
`ProcessSnapshot` in the missing `pkg/model` package
(running, sleeping, zombie, stopped, other). -/
inductive PState where
  | running
  | sleeping
  | zombie
  | stopped
  | other
deriving DecidableEq, Repr

/-- Modelled from the spec: `ProcessSnapshot` of the missing `pkg/model`
package: pid, parent pid, command string and lifecycle state of one
process at one read. -/
structure Process where
  pid : Nat
  ppid : Nat
  command : String
  state : PState
deriving DecidableEq, Repr

/-- Go zero value of `model.Process` (numeric fields 0, empty string, first
enum value), used by `main.go` when the ancestry is empty. -/
def zeroProcess : Process :=
  { pid := 0, ppid := 0, command := "", state := PState.running }

/-- Query kind: pid, port or name (the tagged union `model.Target`). -/
inductive TargetKind where
  | pid
  | port
  | name
deriving DecidableEq, Repr

/-- Modelled from the spec: `model.Target`, a tagged union of kind and raw
string value, built by `main.go` from the flags. -/
structure Target where
  kind : TargetKind
  value : String
deriving DecidableEq, Repr

/-- Socket protocol enum of the missing socket-table reader. -/
inductive Proto where
  | tcp
  | udp
deriving DecidableEq, Repr

/-- Modelled from the spec: `SocketEntry` of the socket-table reader:
local port, protocol, whether the state marks an actively bound socket,
and the owning inode. -/
structure SocketEntry where
  localPort : Nat
  protocol : Proto
  active : Bool
  inode : Nat
deriving DecidableEq, Repr

/-- Error taxonomy of the resolver (spec section 7).  `PartialAncestry` is
a warning, not an error, so it does not appear here. -/
inductive ResolveError where
  | invalidQuery
  | notFound
  | ownerNotDetected
deriving DecidableEq, Repr

/-- Modelled from the spec: the user-facing message of each resolver
error.  `main.go` recognises the owner-not-detected case by searching the
message for the literal substring
"socket found but owning process not detected". -/
def ResolveError.message : ResolveError → String
  | ResolveError.invalidQuery => "invalid query"
  | ResolveError.notFound => "no matching process or service found"
  | ResolveError.ownerNotDetected => "socket found but owning process not detected"

/-- The OS view one invocation reads: the live process table, the socket
table, and the per-process file-descriptor-to-inode correlation
(`none` models a process whose fd table the caller may not enumerate). -/
structure SysEnv where
  procs : List Process
  sockets : List SocketEntry
  fdInodes : Nat → Option (List Nat)

/-- Decides whether the list of characters `n` occurs at the start of `h`. -/
def startsWithL : List Char → List Char → Bool
  | _, [] => true
  | [], _ :: _ => false
  | c :: h, d :: n => decide (c = d) && startsWithL h n

/-- Decides whether the list of characters `n` occurs contiguously inside `h`. -/
def containsL : List Char → List Char → Bool
  | [], n => n.isEmpty
  | c :: h, n => startsWithL (c :: h) n || containsL h n

/-- Case-sensitive substring test on strings (Go `strings.Contains`). -/
def strContains (hay needle : String) : Bool :=
  containsL hay.data needle.data

/-- Parses a run of decimal digits, accumulating into `acc`; any
non-digit character fails the parse (Go `strconv.Atoi`). -/
def parseNatAux : List Char → Nat → Option Nat
  | [], acc => some acc
  | c :: cs, acc =>
    if c.isDigit then parseNatAux cs (acc * 10 + (c.toNat - 48)) else none

/-- Parses a non-empty all-digit string as a natural number
(Go `strconv.Atoi` restricted to the non-negative inputs used here). -/
def parseNat (s : String) : Option Nat :=
  match s.data with
  | [] => none
  | c :: cs => parseNatAux (c :: cs) 0

/-- Reading one process snapshot from the process table by pid
(the ProcessSnapshot Reader leaf; `none` models a failed read). -/
def readProc (tbl : List Process) (pid : Nat) : Option Process :=
  tbl.find? (fun p => p.pid == pid)

/-- Maximum ancestry depth guard.  Modelled from the spec: defends against
a corrupted or cyclic parent chain. -/
def maxAncestryDepth : Nat := 100

/-- Modelled from the spec: the ancestry walk of the missing
`internal/process` package.  Start at `pid`; read the snapshot, append it,
move to the parent.  Stop on a self-parented root, on an unreadable
parent (truncation, not an error), or when the depth guard runs out. -/
def walk (tbl : List Process) : Nat → Nat → List Process
  | 0, _ => []
  | fuel + 1, pid =>
    match readProc tbl pid with
    | none => []
    | some p => if p.ppid = p.pid then [p] else p :: walk tbl fuel p.ppid

/-- Modelled from the spec: `process.BuildAncestry`.  Fails with
`NotFound` only when the initial read of `pid` itself fails; afterwards
every read failure truncates the chain gracefully. -/
def BuildAncestry (tbl : List Process) (pid : Nat) : Except ResolveError (List Process) :=
  match readProc tbl pid with
  | none => Except.error ResolveError.notFound
  | some _ => Except.ok (walk tbl maxAncestryDepth pid)

/-- Known language-runtime command fragments (classifier heuristic 1). -/
def runtimeNames : List String :=
  ["python", "node", "ruby", "java", "perl", "php"]

/-- Known service-supervisor / init command fragments (classifier heuristic 2). -/
def supervisorNames : List String :=
  ["systemd", "init", "supervisord", "runit", "upstart"]

/-- Known shell command fragments (classifier heuristic 3). -/
def shellNames : List String :=
  ["bash", "zsh", "fish", "dash", "sh"]

/-- First name of `names` occurring as a substring of the command `cmd`. -/
def matchName (cmd : String) (names : List String) : Option String :=
  names.find? (fun n => strContains cmd n)

/-- Modelled from the spec: the label the ordered heuristics assign to the
element at distance `i` from the resolved process, or `none` when no
heuristic matches it.  A runtime name anywhere in the chain labels that
runtime; a supervisor pattern labels "service-managed"; a shell command
only when adjacent to the resolved process (distance at most 1) labels
"shell-launched". -/
def elemLabel (i : Nat) (p : Process) : Option String :=
  match matchName p.command runtimeNames with
  | some r => some r
  | none =>
    match matchName p.command supervisorNames with
    | some _ => some "service-managed"
    | none =>
      if i ≤ 1 then
        match matchName p.command shellNames with
        | some _ => some "shell-launched"
        | none => none
      else none

/-- Walks the ancestry outward from the resolved process (element index
`i`), stopping at the first element some heuristic labels. -/
def detectFrom : Nat → List Process → String
  | _, [] => "unknown"
  | i, p :: rest =>
    match elemLabel i p with
    | some l => l
    | none => detectFrom (i + 1) rest

/-- Modelled from the spec: `source.Detect` (the spec's `Classify`):
ordered heuristic matching over the ancestry's command strings, evaluated
from the resolved process outward toward the root, first match wins, and
an unmatched chain yields "unknown", never an error. -/
def Detect (ancestry : List Process) : String :=
  detectFrom 0 ancestry

/-- Warning text for a zombie in the chain. -/
def zombieWarning : String := "zombie process in chain"

/-- Warning text for a truncated (partially read) chain. -/
def truncatedChainWarning : String := "could not read full ancestry: chain truncated"

/-- Warning text for a chain whose root is not pid 1. -/
def orphanWarning : String := "process is orphaned: chain root is not pid 1"

/-- Modelled from the spec: `source.Warnings`, a pure function of the
ancestry: a zombie element warns; a last element that is not a
self-parented root signals the parent link could not be followed (a
truncated chain); a root that is not pid 1 signals an orphan. -/
def Warnings (ancestry : List Process) : List String :=
  (if ancestry.any (fun p => p.state == PState.zombie) then [zombieWarning] else []) ++
    (match ancestry.getLast? with
     | none => []
     | some last =>
       (if last.ppid ≠ last.pid then [truncatedChainWarning] else []) ++
         (if last.pid ≠ 1 then [orphanWarning] else []))

/-- The pids of the live processes whose command contains `q` as a
case-sensitive substring, in ascending order. -/
def matchedPids (tbl : List Process) (q : String) : List Nat :=
  List.insertionSort (fun a b => a ≤ b)
    ((tbl.filter (fun p => strContains p.command q)).map (fun p => p.pid))

/-- Modelled from the spec: name resolution of `target.Resolve`: match
every live process whose command contains the query as a case-sensitive
substring, return the pids in ascending order, `NotFound` on zero
matches. -/
def resolveName (tbl : List Process) (q : String) : Except ResolveError (List Nat) :=
  if (matchedPids tbl q).isEmpty then Except.error ResolveError.notFound
  else Except.ok (matchedPids tbl q)

/-- The sockets of the table actively bound to `port`. -/
def matchingSockets (socks : List SocketEntry) (port : Nat) : List SocketEntry :=
  socks.filter (fun s => s.localPort == port && s.active)

/-- Modelled from the spec: the FD-to-Inode Correlator: whether process
`p` holds one of the matching sockets' inodes.  An unreadable fd table
(permission denied) identifies no socket. -/
def ownsMatching (env : SysEnv) (p : Process) (ms : List SocketEntry) : Bool :=
  match env.fdInodes p.pid with
  | none => false
  | some inodes => ms.any (fun s => inodes.contains s.inode)

/-- The pids of the processes holding an inode of one of the sockets
bound to `port`, in ascending order. -/
def portOwners (env : SysEnv) (port : Nat) : List Nat :=
  List.insertionSort (fun a b => a ≤ b)
    ((env.procs.filter
        (fun p => ownsMatching env p (matchingSockets env.sockets port))).map
      (fun p => p.pid))

/-- Modelled from the spec: port resolution of `target.Resolve`: filter
the socket table to active sockets on the port (`NotFound` when none),
correlate inodes against every process's fd table, and fail with the
distinct `OwnerNotDetected` when a socket exists but no owner could be
identified. -/
def resolvePort (env : SysEnv) (port : Nat) : Except ResolveError (List Nat) :=
  if (matchingSockets env.sockets port).isEmpty then Except.error ResolveError.notFound
  else if (portOwners env port).isEmpty then Except.error ResolveError.ownerNotDetected
  else Except.ok (portOwners env port)

/-- Modelled from the spec: pid resolution of `target.Resolve`: the value
must parse as a positive integer and the process must exist. -/
def resolvePid (tbl : List Process) (v : String) : Except ResolveError (List Nat) :=
  match parseNat v with
  | none => Except.error ResolveError.invalidQuery
  | some 0 => Except.error ResolveError.invalidQuery
  | some (n + 1) =>
    match readProc tbl (n + 1) with
    | none => Except.error ResolveError.notFound
    | some _ => Except.ok [n + 1]

/-- Modelled from the spec: `target.Resolve`, dispatching on the query
kind. -/
def Resolve (env : SysEnv) (t : Target) : Except ResolveError (List Nat) :=
  match t.kind with
  | TargetKind.pid => resolvePid env.procs t.value
  | TargetKind.port =>
    match parseNat t.value with
    | none => Except.error ResolveError.invalidQuery
    | some n => if n ≤ 65535 then resolvePort env n else Except.error ResolveError.invalidQuery
  | TargetKind.name => resolveName env.procs t.value

/-- Embeds the target-selection switch of `main.go` (lines 59-71): a
non-empty --pid flag wins, then a non-empty --port flag, then the first
positional argument; with none of the three, main prints help and exits
(`none`). -/
def selectTarget (pidFlag portFlag : String) (args : List String) : Option Target :=
  if pidFlag ≠ "" then some { kind := TargetKind.pid, value := pidFlag }
  else if portFlag ≠ "" then some { kind := TargetKind.port, value := portFlag }
  else
    match args with
    | [] => none
    | a :: _ => some { kind := TargetKind.name, value := a }

/-- Embeds the guidance decision of `main.go` (line 79): privilege-elevation
advice is printed exactly when the error text contains the marker
substring. -/
def showsElevationGuidance (e : ResolveError) : Bool :=
  strContains e.message "socket found but owning process not detected"

/-- The `model.Result` record built by `main.go` (lines 138-145). -/
structure Result where
  target : Target
  resolvedTarget : String
  process : Process
  ancestry : List Process
  source : String
  warnings : List String
deriving DecidableEq, Repr

/-- Embeds the result construction of `main.go` (lines 128-145): the
`Process` field and `ResolvedTarget` come from the LAST element of the
ancestry when it is non-empty, else the zero process and "unknown". -/
def mkResult (t : Target) (ancestry : List Process) : Result :=
  { target := t
    resolvedTarget :=
      match ancestry.getLast? with
      | none => "unknown"
      | some p => p.command
    process :=
      match ancestry.getLast? with
      | none => zeroProcess
      | some p => p
    ancestry := ancestry
    source := Detect ancestry
    warnings := Warnings ancestry }

/-- What one invocation of `main` does after target selection. -/
inductive Outcome where
  | resolveFailed (e : ResolveError) (guidance : Bool)
  | ambiguous (pids : List Nat)
  | emptyCandidates
  | ancestryFailed (e : ResolveError)
  | report (r : Result)
deriving DecidableEq, Repr

/-- Embeds the pipeline of `main.go` (lines 73-145): resolve; on error
print it with or without elevation guidance; with more than one candidate
list them all and exit without building any ancestry; otherwise build the
single pid's ancestry, classify, and assemble the `Result`.
(`emptyCandidates` marks the out-of-bounds index Go would panic on if the
resolver ever returned an empty candidate list without error.) -/
def pipeline (env : SysEnv) (t : Target) : Outcome :=
  match Resolve env t with
  | Except.error e => Outcome.resolveFailed e (showsElevationGuidance e)
  | Except.ok pids =>
    if pids.length > 1 then Outcome.ambiguous pids
    else
      match pids with
      | [] => Outcome.emptyCandidates
      | pid :: _ =>
        match BuildAncestry env.procs pid with
        | Except.error e => Outcome.ancestryFailed e
        | Except.ok anc => Outcome.report (mkResult t anc)

/-! ### Concrete fixtures (the spec's end-to-end example tree and friends) -/

/-- The root process of the spec's example tree (self-parented). -/
def initP : Process := { pid := 1, ppid := 1, command := "init", state := PState.running }

/-- Example tree: sshd daemon under init. -/
def sshd500 : Process := { pid := 500, ppid := 1, command := "sshd", state := PState.sleeping }

/-- Example tree: per-connection sshd under the daemon. -/
def sshd600 : Process := { pid := 600, ppid := 500, command := "sshd", state := PState.sleeping }

/-- Example tree: the bash session to resolve. -/
def bash601 : Process := { pid := 601, ppid := 600, command := "bash", state := PState.running }

/-- The process table of the spec's example tree. -/
def exTbl : List Process := [initP, sshd500, sshd600, bash601]

/-- The name query of the spec's example scenario. -/
def exTarget : Target := { kind := TargetKind.name, value := "bash" }

/-- The ancestry of bash(601) in the example tree, resolved-first. -/
def exAnc : List Process := [bash601, sshd600, sshd500, initP]

/-- A process whose parent pid (99) is not in the table: walking it
truncates after one element. -/
def orphanP : Process := { pid := 42, ppid := 99, command := "stray", state := PState.running }

/-! ### Helper lemmas about the ancestry walk -/

lemma readProc_pid {tbl : List Process} {pid : Nat} {p : Process}
    (h : readProc tbl pid = some p) : p.pid = pid := by
  unfold readProc at h
  simpa using List.find?_some h

lemma walk_succ_none {tbl : List Process} {fuel pid : Nat}
    (hr : readProc tbl pid = none) : walk tbl (fuel + 1) pid = [] := by
  simp [walk, hr]

lemma walk_succ_self {tbl : List Process} {fuel pid : Nat} {p : Process}
    (hr : readProc tbl pid = some p) (h : p.ppid = p.pid) :
    walk tbl (fuel + 1) pid = [p] := by
  simp [walk, hr, h]

lemma walk_succ_cons {tbl : List Process} {fuel pid : Nat} {p : Process}
    (hr : readProc tbl pid = some p) (h : p.ppid ≠ p.pid) :
    walk tbl (fuel + 1) pid = p :: walk tbl fuel p.ppid := by
  simp [walk, hr, h]

lemma walk_head {tbl : List Process} {fuel pid : Nat} {p : Process} {l : List Process}
    (h : walk tbl (fuel + 1) pid = p :: l) : p.pid = pid := by
  cases hr : readProc tbl pid with
  | none => rw [walk_succ_none hr] at h; exact absurd h (by simp)
  | some q =>
    by_cases hq : q.ppid = q.pid
    · rw [walk_succ_self hr hq] at h
      injection h with h1 _
      subst h1
      exact readProc_pid hr
    · rw [walk_succ_cons hr hq] at h
      injection h with h1 _
      subst h1
      exact readProc_pid hr

/-- The adjacency invariant of an ancestry sequence: every element's
parent pid is the next element's pid. -/
def chainLinked : List Process → Prop
  | [] => True
  | [_] => True
  | p :: q :: rest => p.ppid = q.pid ∧ chainLinked (q :: rest)

lemma chainLinked_tail : ∀ {a : Process} {rest : List Process},
    chainLinked (a :: rest) → chainLinked rest
  | _, [], _ => trivial
  | _, _ :: _, h => h.2

lemma chainLinked_walk (tbl : List Process) : ∀ fuel pid, chainLinked (walk tbl fuel pid)
  | 0, _ => trivial
  | fuel + 1, pid => by
    cases hr : readProc tbl pid with
    | none => rw [walk_succ_none hr]; exact trivial
    | some p =>
      by_cases hq : p.ppid = p.pid
      · rw [walk_succ_self hr hq]; exact trivial
      · rw [walk_succ_cons hr hq]
        cases hw : walk tbl fuel p.ppid with
        | nil => exact trivial
        | cons q rest =>
          show p.ppid = q.pid ∧ chainLinked (q :: rest)
          refine ⟨?_, ?_⟩
          · cases fuel with
            | zero => exact absurd hw (by simp [walk])
            | succ f => exact (walk_head hw).symm
          · have := chainLinked_walk tbl fuel p.ppid
            rwa [hw] at this

lemma chainLinked_get? : ∀ {l : List Process}, chainLinked l →
    ∀ i p q, l.get? i = some p → l.get? (i + 1) = some q → p.ppid = q.pid
  | [], _, i, p, q, hp, _ => by simp at hp
  | a :: rest, h, 0, p, q, hp, hq => by
    have hap : a = p := by simpa using hp
    cases rest with
    | nil => simp at hq
    | cons b rest2 =>
      have hbq : b = q := by simpa using hq
      subst hap
      subst hbq
      exact h.1
  | a :: rest, h, i + 1, p, q, hp, hq => by
    exact chainLinked_get? (chainLinked_tail h) i p q (by simpa using hp) (by simpa using hq)

lemma walk_trunc {tbl : List Process} {p : Process} {pid fuel : Nat}
    (hr : readProc tbl pid = some p) (hne : p.ppid ≠ p.pid)
    (hp : readProc tbl p.ppid = none) : walk tbl (fuel + 1 + 1) pid = [p] := by
  rw [walk_succ_cons hr hne, walk_succ_none hp]

/-! ### Claim theorems -/

/-- C4: every ancestry sequence returned by `BuildAncestry` satisfies the
adjacency invariant: whenever indices `i` and `i+1` are both in range,
`ancestry[i].ppid = ancestry[i+1].pid` (so in particular at every pair
before the final element, as the claim states). -/
theorem c4_ancestry_adjacency (tbl : List Process) (pid : Nat) (anc : List Process)
    (h : BuildAncestry tbl pid = Except.ok anc) :
    ∀ i p q, anc.get? i = some p → anc.get? (i + 1) = some q → p.ppid = q.pid := by
  have hlink : chainLinked anc := by
    unfold BuildAncestry at h
    cases hr : readProc tbl pid with
    | none => rw [hr] at h; exact absurd h (by simp)
    | some _ =>
      rw [hr] at h
      injection h with h1
      rw [← h1]
      exact chainLinked_walk tbl maxAncestryDepth pid
  exact fun i p q hp hq => chainLinked_get? hlink i p q hp hq

/-- Witness for C4: in the example tree, the resolved bash(601)'s recorded
parent equals the next element sshd(600)'s pid. -/
theorem c4_witness : bash601.ppid = sshd600.pid :=
  c4_ancestry_adjacency exTbl 601 exAnc rfl 0 bash601 sshd600 rfl rfl

/-- C3: `BuildAncestry` fails (with `NotFound`) exactly when the initial
read of the queried pid fails; once the initial read succeeds it always
returns a chain, and when the very parent is unreadable mid-walk it
returns the truncated one-element prefix without error while the warning
layer reports the partial-chain warning. -/
theorem c3_error_only_initial_read (tbl : List Process) (pid : Nat) :
    (readProc tbl pid = none → BuildAncestry tbl pid = Except.error ResolveError.notFound) ∧
    (∀ p, readProc tbl pid = some p → ∃ anc, BuildAncestry tbl pid = Except.ok anc) ∧
    (∀ p, readProc tbl pid = some p → p.ppid ≠ p.pid → readProc tbl p.ppid = none →
      BuildAncestry tbl pid = Except.ok [p] ∧ truncatedChainWarning ∈ Warnings [p]) := by
  refine ⟨?_, ?_, ?_⟩
  · intro hnone
    unfold BuildAncestry
    rw [hnone]
  · intro p hp
    refine ⟨walk tbl maxAncestryDepth pid, ?_⟩
    unfold BuildAncestry
    rw [hp]
  · intro p hp hne hpar
    constructor
    · unfold BuildAncestry
      rw [hp]
      rw [show maxAncestryDepth = 98 + 1 + 1 from rfl]
      rw [walk_trunc hp hne hpar]
    · simp [Warnings, hne]

/-- Witness for C3: walking pid 42 whose parent 99 is unreadable yields
the truncated `[orphanP]` with no error plus the partial-chain warning,
while querying the absent pid 7 fails with `NotFound`. -/
theorem c3_witness :
    BuildAncestry [orphanP] 42 = Except.ok [orphanP] ∧
    truncatedChainWarning ∈ Warnings [orphanP] ∧
    BuildAncestry [orphanP] 7 = Except.error ResolveError.notFound := by
  have h := (c3_error_only_initial_read [orphanP] 42).2.2 orphanP rfl (by decide) rfl
  exact ⟨h.1, h.2, (c3_error_only_initial_read [orphanP] 7).1 rfl⟩

/-- C1 counterexample: in the spec's example tree the ancestry of
bash(601) is indeed `[bash601, sshd600, sshd500, initP]`
(resolved-first, root-last), but the `Result` built by `main.go` from it
carries the LAST element: its `process` is not bash(601) and its
`resolvedTarget` is not "bash", refuting the claim's second half. -/
theorem c1_counterexample :
    BuildAncestry exTbl 601 = Except.ok exAnc ∧
    (mkResult exTarget exAnc).process ≠ bash601 ∧
    (mkResult exTarget exAnc).resolvedTarget ≠ "bash" := by
  refine ⟨rfl, ?_, ?_⟩ <;> decide

/-- C1 (amended): the ancestry sequence is resolved-process-first,
root-last as claimed, but the `Result`'s `process` field and
`resolvedTarget` are the snapshot and command of the LAST element of the
ancestry (the root): for the example tree, init(1) and "init". -/
theorem c1_result_uses_last_element :
    BuildAncestry exTbl 601 = Except.ok [bash601, sshd600, sshd500, initP] ∧
    (mkResult exTarget [bash601, sshd600, sshd500, initP]).process = initP ∧
    (mkResult exTarget [bash601, sshd600, sshd500, initP]).resolvedTarget = "init" :=
  ⟨rfl, rfl, rfl⟩

/-! ### Helper lemmas about the classifier walk -/

lemma detectFrom_none : ∀ (l : List Process) (i0 : Nat),
    (∀ k p, l.get? k = some p → elemLabel (i0 + k) p = none) → detectFrom i0 l = "unknown"
  | [], _, _ => rfl
  | p :: rest, i0, h => by
    have h0 : elemLabel i0 p = none := by simpa using h 0 p rfl
    simp only [detectFrom, h0]
    exact detectFrom_none rest (i0 + 1) (fun k q hq => by
      have hk := h (k + 1) q (by simpa using hq)
      rwa [show i0 + (k + 1) = i0 + 1 + k by omega] at hk)

lemma detectFrom_first : ∀ (l : List Process) (i0 i : Nat) (p : Process) (lbl : String),
    l.get? i = some p → elemLabel (i0 + i) p = some lbl →
    (∀ j, j < i → ∀ q, l.get? j = some q → elemLabel (i0 + j) q = none) →
    detectFrom i0 l = lbl
  | [], _, i, p, _, hp, _, _ => by simp at hp
  | r :: rest, i0, 0, p, lbl, hp, hl, _ => by
    have hrp : r = p := by simpa using hp
    subst hrp
    rw [show i0 + 0 = i0 by omega] at hl
    simp only [detectFrom, hl]
  | r :: rest, i0, k + 1, p, lbl, hp, hl, hj => by
    have h0 : elemLabel i0 r = none := by simpa using hj 0 (Nat.succ_pos k) r rfl
    simp only [detectFrom, h0]
    exact detectFrom_first rest (i0 + 1) k p lbl (by simpa using hp)
      (by rwa [show i0 + 1 + k = i0 + (k + 1) by omega])
      (fun j hjk q hq => by
        have hq2 := hj (j + 1) (by omega) q (by simpa using hq)
        rwa [show i0 + (j + 1) = i0 + 1 + j by omega] at hq2)

/-- C6: `Detect` walks the ancestry from the resolved process outward
toward the root, stops at the first element that some ordered heuristic
labels (runtime, then supervisor, then shell-if-adjacent, as encoded in
`elemLabel`), and never fails: a chain no heuristic matches yields the
label "unknown", not an error. -/
theorem c6_classification_first_match (chain : List Process) :
    ((∀ i p, chain.get? i = some p → elemLabel i p = none) → Detect chain = "unknown") ∧
    (∀ i p lbl, chain.get? i = some p → elemLabel i p = some lbl →
      (∀ j, j < i → ∀ q, chain.get? j = some q → elemLabel j q = none) →
      Detect chain = lbl) := by
  constructor
  · intro h
    exact detectFrom_none chain 0 (fun k p hk => by rw [Nat.zero_add]; exact h k p hk)
  · intro i p lbl hp hl hj
    exact detectFrom_first chain 0 i p lbl hp (by rwa [Nat.zero_add])
      (fun j hjk q hq => by rw [Nat.zero_add]; exact hj j hjk q hq)

/-- A process run by a language runtime, for the classifier witness. -/
def pyProc : Process :=
  { pid := 5, ppid := 1, command := "/usr/bin/python3 app.py", state := PState.running }

/-- Witness for C6: a chain whose resolved process runs under python is
labelled "python" by the first heuristic at the first element. -/
theorem c6_witness : Detect [pyProc] = "python" :=
  (c6_classification_first_match [pyProc]).2 0 pyProc "python" rfl rfl
    (fun j hj _ _ => absurd hj (Nat.not_lt_zero j))

/-- C7: `Detect` (the spec's `Classify`) and `Warnings` are pure
functions of the ancestry sequence alone: two calls on identical input
always return the identical label and the identical warning list —
they take no other state and perform no I/O in the model. -/
theorem c7_classify_warnings_pure (a b : List Process) (h : a = b) :
    Detect a = Detect b ∧ Warnings a = Warnings b := by
  rw [h]
  exact ⟨rfl, rfl⟩

/-- Witness for C7: the example ancestry classifies and warns identically
across repeated calls. -/
theorem c7_witness : Detect exAnc = Detect exAnc ∧ Warnings exAnc = Warnings exAnc :=
  c7_classify_warnings_pure exAnc exAnc rfl

/-- A TCP socket actively bound to port 8080, held by inode 555. -/
def sock8080 : SocketEntry :=
  { localPort := 8080, protocol := Proto.tcp, active := true, inode := 555 }

/-- A process (another user's daemon) whose fd table cannot be read. -/
def secretP : Process :=
  { pid := 900, ppid := 1, command := "secret-daemon", state := PState.running }

/-- Environment for the C2 witness: the socket exists but no fd table is
enumerable. -/
def wenv2 : SysEnv :=
  { procs := [secretP], sockets := [sock8080], fdInodes := fun _ => none }

/-- Port query for the C2 witness. -/
def wt2 : Target := { kind := TargetKind.port, value := "8080" }

/-- C2: when a socket bound to the queried port exists but no process can
be identified as its owner, `resolvePort` fails with `OwnerNotDetected`,
which is distinguishable from `NotFound`; `main.go` surfaces it by
printing the privilege-elevation guidance exactly for this error, and the
full pipeline propagates it to the caller with the guidance flag set. -/
theorem c2_owner_not_detected_distinct (env : SysEnv) (port : Nat)
    (hs : matchingSockets env.sockets port ≠ [])
    (ho : ∀ p, p ∈ env.procs →
      ownsMatching env p (matchingSockets env.sockets port) = false) :
    resolvePort env port = Except.error ResolveError.ownerNotDetected ∧
    ResolveError.ownerNotDetected ≠ ResolveError.notFound ∧
    showsElevationGuidance ResolveError.ownerNotDetected = true ∧
    showsElevationGuidance ResolveError.notFound = false ∧
    (∀ t : Target, t.kind = TargetKind.port → parseNat t.value = some port →
      port ≤ 65535 →
      pipeline env t = Outcome.resolveFailed ResolveError.ownerNotDetected true) := by
  have howners : portOwners env port = [] := by
    unfold portOwners
    rw [List.filter_eq_nil_iff.mpr (fun a ha => by simp [ho a ha])]
    rfl
  have h1 : (matchingSockets env.sockets port).isEmpty = false := by
    rw [List.isEmpty_eq_false]
    exact hs
  have hres : resolvePort env port = Except.error ResolveError.ownerNotDetected := by
    unfold resolvePort
    rw [h1, howners]
    rfl
  refine ⟨hres, by decide, rfl, by decide, ?_⟩
  intro t hk hv hle
  obtain ⟨k, v⟩ := t
  simp only at hk hv
  subst hk
  have hR : Resolve env { kind := TargetKind.port, value := v } =
      Except.error ResolveError.ownerNotDetected := by
    unfold Resolve
    simp only
    rw [hv]
    simp only
    rw [if_pos hle]
    exact hres
  unfold pipeline
  rw [hR]
  rfl

/-- Witness for C2: in `wenv2` the port-8080 socket exists with no
enumerable owner, so resolution fails with `OwnerNotDetected` and the
pipeline surfaces it with the elevation guidance flag. -/
theorem c2_witness :
    resolvePort wenv2 8080 = Except.error ResolveError.ownerNotDetected ∧
    ResolveError.ownerNotDetected ≠ ResolveError.notFound ∧
    pipeline wenv2 wt2 = Outcome.resolveFailed ResolveError.ownerNotDetected true := by
  have h := c2_owner_not_detected_distinct wenv2 8080 (by decide) (by decide)
  exact ⟨h.1, h.2.1, h.2.2.2.2 wt2 rfl (by decide) (by decide)⟩

/-- C5: for every name query, a successful resolution returns the pids
sorted ascending and containing exactly the live processes whose command
contains the query as a case-sensitive substring; when no process
matches, resolution fails with `NotFound`. -/
theorem c5_name_resolution (tbl : List Process) (q : String) :
    (∀ pids, resolveName tbl q = Except.ok pids →
      List.Sorted (fun a b => a ≤ b) pids ∧
      (∀ n, n ∈ pids ↔ ∃ p, p ∈ tbl ∧ p.pid = n ∧ strContains p.command q = true)) ∧
    ((∀ p, p ∈ tbl → strContains p.command q = false) →
      resolveName tbl q = Except.error ResolveError.notFound) := by
  constructor
  · intro pids h
    unfold resolveName at h
    split at h
    · exact absurd h (by simp)
    · injection h with h1
      rw [← h1]
      constructor
      · unfold matchedPids
        exact List.sorted_insertionSort _ _
      · intro n
        unfold matchedPids
        rw [List.mem_insertionSort _]
        simp only [List.mem_map, List.mem_filter]
        constructor
        · rintro ⟨p, ⟨hp, hc⟩, hn⟩
          exact ⟨p, hp, hn, hc⟩
        · rintro ⟨p, hp, hn, hc⟩
          exact ⟨p, ⟨hp, hc⟩, hn⟩
  · intro hall
    have hm : matchedPids tbl q = [] := by
      unfold matchedPids
      rw [List.filter_eq_nil_iff.mpr (fun a ha => by simp [hall a ha])]
      rfl
    unfold resolveName
    rw [hm]
    rfl

/-- A python worker, pid 20. -/
def wp20 : Process := { pid := 20, ppid := 1, command := "python app", state := PState.running }

/-- A python worker, pid 10. -/
def wp10 : Process := { pid := 10, ppid := 1, command := "python srv", state := PState.running }

/-- A two-match process table for the name-resolution witnesses, listed
out of pid order. -/
def wtbl : List Process := [wp20, wp10]

/-- Witness for C5: the query "python" over `wtbl` yields `[10, 20]`,
which is sorted ascending and whose membership matches the substring
predicate. -/
theorem c5_witness :
    List.Sorted (fun a b => a ≤ b) ([10, 20] : List Nat) ∧
    (10 ∈ ([10, 20] : List Nat) ↔
      ∃ p, p ∈ wtbl ∧ p.pid = 10 ∧ strContains p.command "python" = true) := by
  have h := (c5_name_resolution wtbl "python").1 [10, 20] rfl
  exact ⟨h.1, h.2 10⟩

/-- C8: whenever resolution returns more than one candidate pid, the
pipeline stops at the ambiguity: it reports all candidates verbatim and
never reaches ancestry building (no `Result` is ever produced). -/
theorem c8_no_auto_select (env : SysEnv) (t : Target) (pids : List Nat)
    (h : Resolve env t = Except.ok pids) (hlen : pids.length > 1) :
    pipeline env t = Outcome.ambiguous pids ∧
    ∀ r, pipeline env t ≠ Outcome.report r := by
  have hp : pipeline env t = Outcome.ambiguous pids := by
    unfold pipeline
    rw [h]
    simp [hlen]
  refine ⟨hp, fun r hr => ?_⟩
  rw [hp] at hr
  exact absurd hr (by simp)

/-- Environment for the C8 witness: two python processes. -/
def wenv8 : SysEnv := { procs := wtbl, sockets := [], fdInodes := fun _ => none }

/-- Name query matching both python processes. -/
def wt8 : Target := { kind := TargetKind.name, value := "python" }

/-- Witness for C8: the two-match query ends in the ambiguity listing
carrying both pids. -/
theorem c8_witness : pipeline wenv8 wt8 = Outcome.ambiguous [10, 20] :=
  (c8_no_auto_select wenv8 wt8 [10, 20] rfl (by decide)).1

/-- C9: `main.go` never rejects an invocation that supplies several query
kinds; the switch picks with fixed precedence: a non-empty --pid value
wins over --port, which wins over a positional name argument, the losing
values being ignored. -/
theorem c9_flag_precedence (ps po : String) (args : List String) :
    (ps ≠ "" → selectTarget ps po args = some { kind := TargetKind.pid, value := ps }) ∧
    (ps = "" → po ≠ "" →
      selectTarget ps po args = some { kind := TargetKind.port, value := po }) ∧
    (ps = "" → po = "" → ∀ a rest, args = a :: rest →
      selectTarget ps po args = some { kind := TargetKind.name, value := a }) := by
  refine ⟨?_, ?_, ?_⟩
  · intro h
    unfold selectTarget
    rw [if_pos h]
  · intro h1 h2
    unfold selectTarget
    rw [if_neg (by simp [h1]), if_pos h2]
  · intro h1 h2 a rest ha
    unfold selectTarget
    rw [if_neg (by simp [h1]), if_neg (by simp [h2]), ha]

/-- Witness for C9: with all three query kinds supplied, --pid wins; with
--pid empty, --port wins; with both flags empty, the positional argument
is used. -/
theorem c9_witness :
    selectTarget "5" "80" ["nginx"] = some { kind := TargetKind.pid, value := "5" } ∧
    selectTarget "" "80" ["nginx"] = some { kind := TargetKind.port, value := "80" } ∧
    selectTarget "" "" ["nginx"] = some { kind := TargetKind.name, value := "nginx" } := by
  refine ⟨?_, ?_, ?_⟩
  · exact (c9_flag_precedence "5" "80" ["nginx"]).1 (by decide)
  · exact (c9_flag_precedence "" "80" ["nginx"]).2.1 rfl (by decide)
  · exact (c9_flag_precedence "" "" ["nginx"]).2.2 rfl rfl "nginx" [] rfl

/-- C10: on an empty ancestry the result construction of `main.go` still
completes: `resolvedTarget` is the string "unknown", the process is the
zero value, and classification and warning generation are run on the
empty ancestry (yielding "unknown" and no warnings) instead of failing. -/
theorem c10_empty_ancestry_result (t : Target) :
    (mkResult t []).resolvedTarget = "unknown" ∧
    (mkResult t []).process = zeroProcess ∧
    (mkResult t []).source = Detect [] ∧
    (mkResult t []).source = "unknown" ∧
    (mkResult t []).warnings = Warnings [] ∧
    (mkResult t []).warnings = [] :=
  ⟨rfl, rfl, rfl, rfl, rfl, rfl⟩
